import Mathlib

/-!
Verification development for the database-cinema generative-art engine.

The JavaScript source is embedded shallowly:

* JavaScript numbers are modelled by `JReal := Option ℝ`: `some x` is an
  ordinary finite value (idealised as a real number, ignoring rounding),
  `none` stands for the non-finite results (`NaN` / `Infinity`) that the
  arithmetic can produce (`0/0`, `x % 0`, `Math.acos` outside `[-1, 1]`,
  `Math.sqrt` of a negative, ...).  All operations propagate `none`,
  mirroring `NaN` propagation.
* the coordinate-system layout generator `getOtherLayoutPositions`, the
  atlas builder `createAtlas`, the keyframe animation controllers, the
  per-instance transform writer and the frame exporter are translated
  function by function from the source.
-/

open scoped Classical

namespace DatabaseCinema

/-- Shallow model of a JavaScript number: `some x` is a finite value,
`none` is `NaN` or `±Infinity`. -/
abbrev JReal := Option ℝ

/-- Truncation toward zero as a real number, as used by the JavaScript `%`
remainder operator. -/
noncomputable def jtrunc (x : ℝ) : ℝ := if 0 ≤ x then (⌊x⌋ : ℝ) else (⌈x⌉ : ℝ)

namespace JReal

/-- JavaScript `+` on numbers. -/
noncomputable def add : JReal → JReal → JReal
  | some a, some b => some (a + b)
  | _, _ => none

/-- JavaScript binary `-` on numbers. -/
noncomputable def sub : JReal → JReal → JReal
  | some a, some b => some (a - b)
  | _, _ => none

/-- JavaScript `*` on numbers. -/
noncomputable def mul : JReal → JReal → JReal
  | some a, some b => some (a * b)
  | _, _ => none

/-- JavaScript `/` on numbers.  Division by zero yields a non-finite value
(`NaN` for `0/0`, `±Infinity` otherwise), here collapsed to `none`. -/
noncomputable def div : JReal → JReal → JReal
  | some a, some b => if b = 0 then none else some (a / b)
  | _, _ => none

/-- JavaScript `%` remainder: `a - b * trunc (a / b)`; `x % 0` is `NaN`. -/
noncomputable def mod : JReal → JReal → JReal
  | some a, some b => if b = 0 then none else some (a - b * jtrunc (a / b))
  | _, _ => none

/-- `Math.sin`. -/
noncomputable def sin : JReal → JReal
  | some a => some (Real.sin a)
  | none => none

/-- `Math.cos`. -/
noncomputable def cos : JReal → JReal
  | some a => some (Real.cos a)
  | none => none

/-- `Math.sinh`. -/
noncomputable def sinh : JReal → JReal
  | some a => some (Real.sinh a)
  | none => none

/-- `Math.cosh`. -/
noncomputable def cosh : JReal → JReal
  | some a => some (Real.cosh a)
  | none => none

/-- `Math.sqrt`; negative arguments give `NaN`. -/
noncomputable def sqrt : JReal → JReal
  | some a => if a < 0 then none else some (Real.sqrt a)
  | none => none

/-- `Math.acos`; arguments outside `[-1, 1]` give `NaN`. -/
noncomputable def acos : JReal → JReal
  | some a => if a < -1 ∨ 1 < a then none else some (Real.arccos a)
  | none => none

/-- `Math.abs`. -/
noncomputable def abs : JReal → JReal
  | some a => some |a|
  | none => none

/-- `Math.floor`. -/
noncomputable def floor : JReal → JReal
  | some a => some (⌊a⌋ : ℝ)
  | none => none

@[simp] theorem add_some (a b : ℝ) : add (some a) (some b) = some (a + b) := rfl

@[simp] theorem sub_some (a b : ℝ) : sub (some a) (some b) = some (a - b) := rfl

@[simp] theorem mul_some (a b : ℝ) : mul (some a) (some b) = some (a * b) := rfl

@[simp] theorem sin_some (a : ℝ) : sin (some a) = some (Real.sin a) := rfl

@[simp] theorem cos_some (a : ℝ) : cos (some a) = some (Real.cos a) := rfl

@[simp] theorem sinh_some (a : ℝ) : sinh (some a) = some (Real.sinh a) := rfl

@[simp] theorem cosh_some (a : ℝ) : cosh (some a) = some (Real.cosh a) := rfl

@[simp] theorem abs_some (a : ℝ) : abs (some a) = some |a| := rfl

@[simp] theorem floor_some (a : ℝ) : floor (some a) = some (⌊a⌋ : ℝ) := rfl

theorem div_some (a b : ℝ) (hb : b ≠ 0) : div (some a) (some b) = some (a / b) := by
  simp [div, hb]

theorem mod_some (a b : ℝ) (hb : b ≠ 0) :
    mod (some a) (some b) = some (a - b * jtrunc (a / b)) := by
  simp [mod, hb]

theorem sqrt_some (a : ℝ) (ha : 0 ≤ a) : sqrt (some a) = some (Real.sqrt a) := by
  simp [sqrt, not_lt.mpr ha]

theorem acos_some (a : ℝ) (h₁ : -1 ≤ a) (h₂ : a ≤ 1) :
    acos (some a) = some (Real.arccos a) := by
  simp [acos, not_lt.mpr h₁, not_lt.mpr h₂]

@[simp] theorem add_none_left (b : JReal) : add none b = none := by cases b <;> rfl

@[simp] theorem add_none_right (a : JReal) : add a none = none := by cases a <;> rfl

@[simp] theorem sub_none_left (b : JReal) : sub none b = none := by cases b <;> rfl

@[simp] theorem sub_none_right (a : JReal) : sub a none = none := by cases a <;> rfl

@[simp] theorem mul_none_left (b : JReal) : mul none b = none := by cases b <;> rfl

@[simp] theorem mul_none_right (a : JReal) : mul a none = none := by cases a <;> rfl

@[simp] theorem div_none_left (b : JReal) : div none b = none := by cases b <;> rfl

@[simp] theorem div_none_right (a : JReal) : div a none = none := by cases a <;> rfl

@[simp] theorem cosh_none : cosh none = none := rfl

@[simp] theorem sinh_none : sinh none = none := rfl

@[simp] theorem sin_none : sin none = none := rfl

@[simp] theorem cos_none : cos none = none := rfl

end JReal

/-- Closed set of layout variants recognised by the generator's `switch`;
`cube` is also the `default` fallback case. -/
inductive Layout
  | cube
  | sphere
  | cylinder
  | scatter
  | ellipticCylinder
  | parabolicCylinder
  | paraboloidal
  | ellipsoidal
  | oblateSpheroidal
  | prolateSpheroidal
  | bispherical
  | conical
deriving DecidableEq, Repr

/-- Dispatch of the `switch (type)` statement: the eleven named non-default
cases, with every other string (including `"Cube"`) falling through to the
default axis-aligned lattice. -/
def parseLayout : String → Layout
  | "Sphere" => .sphere
  | "Cylinder" => .cylinder
  | "Scatter" => .scatter
  | "Elliptic Cylinder" => .ellipticCylinder
  | "Parabolic Cylinder" => .parabolicCylinder
  | "Paraboloidal" => .paraboloidal
  | "Ellipsoidal" => .ellipsoidal
  | "Oblate Spheroidal" => .oblateSpheroidal
  | "Prolate Spheroidal" => .prolateSpheroidal
  | "Bispherical" => .bispherical
  | "Conical" => .conical
  | _ => .cube

/-- Normalised grid coordinate `ix / (N - 1)` (a `0/0 = NaN` when `N = 1`). -/
noncomputable def normU0 (N ix : ℕ) : JReal :=
  JReal.div (some (ix : ℝ)) (some ((N : ℝ) - 1))

/-- Time-shifted normalised coordinate
`w0 = (iz / N + timeOffset) % 1.0`, wrapped into `[0, 1)` by the
`if (w0 < 0) w0 += 1.0` fix-up. -/
noncomputable def normW0 (N iz : ℕ) (timeOffset : ℝ) : JReal :=
  match JReal.mod (JReal.add (JReal.div (some (iz : ℝ)) (some (N : ℝ))) (some timeOffset))
      (some 1) with
  | some a => if a < 0 then some (a + 1) else some a
  | none => none

/-- Fibonacci-sphere case `'Sphere'` of `getOtherLayoutPositions`. -/
noncomputable def spherePos (count N : ℕ) (spacing timeOffset : ℝ) (i : ℕ) :
    JReal × JReal × JReal :=
  let effectiveI := JReal.mod (some ((i : ℝ) + timeOffset * count)) (some (count : ℝ))
  let phi := JReal.acos (JReal.sub (some 1)
    (JReal.div (JReal.mul (some 2) (JReal.add effectiveI (some 0.5))) (some (count : ℝ))))
  let theta := JReal.mul (some (Real.pi * (1 + Real.sqrt 5))) effectiveI
  let r : ℝ := N * spacing * 0.6
  (JReal.mul (JReal.mul (some r) (JReal.sin phi)) (JReal.cos theta),
   JReal.mul (JReal.mul (some r) (JReal.sin phi)) (JReal.sin theta),
   JReal.mul (some r) (JReal.cos phi))

/-- Pitch-adaptive helical case `'Cylinder'` of `getOtherLayoutPositions`. -/
noncomputable def cylinderPos (count N : ℕ) (spacing cubeSize timeOffset : ℝ) (i : ℕ) :
    JReal × JReal × JReal :=
  let effectiveI := JReal.mod (some ((i : ℝ) + timeOffset * count)) (some (count : ℝ))
  let r : ℝ := N * spacing * 0.4
  let circumference : ℝ := 2 * Real.pi * r
  let itemWidth : ℝ := cubeSize * 1.2
  let itemsPerTurn := JReal.div (some circumference) (some itemWidth)
  let totalTurns := JReal.div (some (count : ℝ)) itemsPerTurn
  let totalHeight := JReal.mul totalTurns (some (cubeSize * 1.2))
  let theta := JReal.mul (JReal.mul (JReal.mul (JReal.div effectiveI (some (count : ℝ)))
    (some Real.pi)) (some 2)) totalTurns
  let h := JReal.sub (JReal.mul (JReal.div effectiveI (some (count : ℝ))) totalHeight)
    (JReal.div totalHeight (some 2))
  (JReal.mul (some r) (JReal.cos theta), h, JReal.mul (some r) (JReal.sin theta))

/-- Hash-style pseudo-random value `Math.sin(seed * n) * 43758.5453 % 1`. -/
noncomputable def scatterRand (seed : JReal) (n : ℝ) : JReal :=
  JReal.mod (JReal.mul (JReal.sin (JReal.mul seed (some n))) (some 43758.5453)) (some 1)

/-- Deterministic-random case `'Scatter'` of `getOtherLayoutPositions`. -/
noncomputable def scatterPos (count N : ℕ) (spacing timeOffset : ℝ) (i : ℕ) :
    JReal × JReal × JReal :=
  let effectiveI := JReal.floor (JReal.mod (some ((i : ℝ) + timeOffset * count))
    (some (count : ℝ)))
  let seed := JReal.mul effectiveI (some 123.45)
  let range : ℝ := N * spacing
  (JReal.mul (JReal.mul (JReal.sub (scatterRand seed 1) (some 0.5)) (some range)) (some 2),
   JReal.mul (JReal.mul (JReal.sub (scatterRand seed 2) (some 0.5)) (some range)) (some 2),
   JReal.mul (JReal.mul (JReal.sub (scatterRand seed 3) (some 0.5)) (some range)) (some 2))

/-- Case `'Elliptic Cylinder'` of `getOtherLayoutPositions`. -/
noncomputable def ellipticCylinderPos (scale : ℝ) (u0 v0 wc : JReal) :
    JReal × JReal × JReal :=
  let c : ℝ := scale * 0.5
  let u := JReal.add (JReal.mul u0 (some 1.5)) (some 0.5)
  let v := JReal.mul (JReal.mul v0 (some Real.pi)) (some 2)
  let w := JReal.mul (JReal.mul wc (some scale)) (some 2)
  (JReal.mul (JReal.mul (some c) (JReal.cosh u)) (JReal.cos v),
   JReal.mul (JReal.mul (some c) (JReal.sinh u)) (JReal.sin v),
   w)

/-- Case `'Parabolic Cylinder'` of `getOtherLayoutPositions`. -/
noncomputable def parabolicCylinderPos (scale : ℝ) (uc vc wc : JReal) :
    JReal × JReal × JReal :=
  let u := JReal.mul uc (JReal.sqrt (some (scale * 2)))
  let v := JReal.mul vc (JReal.sqrt (some (scale * 2)))
  let w := JReal.mul (JReal.mul wc (some scale)) (some 2)
  (JReal.mul (some 0.5) (JReal.sub (JReal.mul u u) (JReal.mul v v)),
   JReal.mul u v,
   w)

/-- Case `'Paraboloidal'` of `getOtherLayoutPositions`. -/
noncomputable def paraboloidalPos (scale : ℝ) (u0 v0 w0 : JReal) :
    JReal × JReal × JReal :=
  let u := JReal.mul u0 (JReal.sqrt (some (scale * 2)))
  let v := JReal.mul v0 (JReal.sqrt (some (scale * 2)))
  let phi := JReal.mul (JReal.mul w0 (some Real.pi)) (some 2)
  (JReal.mul (JReal.mul u v) (JReal.cos phi),
   JReal.mul (JReal.mul u v) (JReal.sin phi),
   JReal.mul (some 0.5) (JReal.sub (JReal.mul u u) (JReal.mul v v)))

/-- Case `'Ellipsoidal'` of `getOtherLayoutPositions`, including the
integer jitter term `((ix*13 + iy*17 + iz*19) % 100) * 0.002`. -/
noncomputable def ellipsoidalPos (scale : ℝ) (u0 v0 wc : JReal) (ix iy iz : ℕ) :
    JReal × JReal × JReal :=
  let a : ℝ := scale * 1.5
  let b : ℝ := scale * 1.0
  let c : ℝ := scale * 0.6
  let theta := JReal.mul u0 (some Real.pi)
  let phi := JReal.mul (JReal.mul v0 (some Real.pi)) (some 2)
  let rho := JReal.add (JReal.add (some 1) (JReal.mul wc (some 0.2)))
    (some ((((ix * 13 + iy * 17 + iz * 19) % 100 : ℕ) : ℝ) * 0.002))
  (JReal.mul (JReal.mul (JReal.mul (some a) rho) (JReal.sin theta)) (JReal.cos phi),
   JReal.mul (JReal.mul (JReal.mul (some b) rho) (JReal.sin theta)) (JReal.sin phi),
   JReal.mul (JReal.mul (some c) rho) (JReal.cos theta))

/-- Case `'Oblate Spheroidal'` of `getOtherLayoutPositions`. -/
noncomputable def oblateSpheroidalPos (scale : ℝ) (u0 vc w0 : JReal) :
    JReal × JReal × JReal :=
  let a : ℝ := scale
  let u := JReal.add (JReal.mul u0 (some 1.0)) (some 0.2)
  let v := JReal.div (JReal.mul vc (some Real.pi)) (some 2)
  let phi := JReal.mul (JReal.mul w0 (some Real.pi)) (some 2)
  (JReal.mul (JReal.mul (JReal.mul (some a) (JReal.cosh u)) (JReal.cos v)) (JReal.cos phi),
   JReal.mul (JReal.mul (JReal.mul (some a) (JReal.cosh u)) (JReal.cos v)) (JReal.sin phi),
   JReal.mul (JReal.mul (some a) (JReal.sinh u)) (JReal.sin v))

/-- Case `'Prolate Spheroidal'` of `getOtherLayoutPositions`. -/
noncomputable def prolateSpheroidalPos (scale : ℝ) (u0 v0 w0 : JReal) :
    JReal × JReal × JReal :=
  let a : ℝ := scale
  let u := JReal.add (JReal.mul u0 (some 1.0)) (some 0.2)
  let v := JReal.mul v0 (some Real.pi)
  let phi := JReal.mul (JReal.mul w0 (some Real.pi)) (some 2)
  (JReal.mul (JReal.mul (JReal.mul (some a) (JReal.sinh u)) (JReal.sin v)) (JReal.cos phi),
   JReal.mul (JReal.mul (JReal.mul (some a) (JReal.sinh u)) (JReal.sin v)) (JReal.sin phi),
   JReal.mul (JReal.mul (some a) (JReal.cosh u)) (JReal.cos v))

/-- Clamp `u` away from the bispherical singularity:
`u_safe = (Math.abs(u) < 0.1 ? 0.1 : u)`. -/
noncomputable def bisphericalUSafe (u : JReal) : JReal :=
  match u with
  | some a => if |a| < 0.1 then some 0.1 else some a
  | none => none

/-- Case `'Bispherical'` of `getOtherLayoutPositions`. -/
noncomputable def bisphericalPos (scale : ℝ) (uc v0 w0 : JReal) :
    JReal × JReal × JReal :=
  let a : ℝ := scale * 0.8
  let u := JReal.mul uc (some 2.0)
  let uSafe := bisphericalUSafe u
  let v := JReal.add (JReal.mul (JReal.mul v0 (some Real.pi)) (some 0.9)) (some 0.05)
  let phi := JReal.mul (JReal.mul w0 (some Real.pi)) (some 2)
  let denom := JReal.sub (JReal.cosh uSafe) (JReal.cos v)
  (JReal.div (JReal.mul (JReal.mul (some a) (JReal.sin v)) (JReal.cos phi)) denom,
   JReal.div (JReal.mul (JReal.mul (some a) (JReal.sin v)) (JReal.sin phi)) denom,
   JReal.div (JReal.mul (some a) (JReal.sinh uSafe)) denom)

/-- Case `'Conical'` of `getOtherLayoutPositions`. -/
noncomputable def conicalPos (N : ℕ) (scale cubeSize : ℝ) (uc v0 w0 : JReal) :
    JReal × JReal × JReal :=
  let h := JReal.mul (JReal.mul uc (some scale)) (some 2)
  let baseR := JReal.mul (JReal.mul (JReal.sub (some 1.0) (JReal.abs uc)) (some scale))
    (some 1.5)
  let layerOffset := JReal.mul (JReal.mul w0 (some (N : ℝ))) (some (cubeSize * 1.5))
  let r := JReal.add baseR layerOffset
  let theta := JReal.mul (JReal.mul v0 (some Real.pi)) (some 2)
  (JReal.mul r (JReal.cos theta), h, JReal.mul r (JReal.sin theta))

/-- Default case of the `switch`: the axis-aligned cube lattice with the
`w0`-based z-shift. -/
noncomputable def cubePos (N : ℕ) (spacing : ℝ) (ix iy : ℕ) (w0 : JReal) :
    JReal × JReal × JReal :=
  let offset : ℝ := ((N : ℝ) - 1) * spacing / 2
  let zShifted := JReal.sub (JReal.mul (JReal.mul w0 (some ((N : ℝ) - 1))) (some spacing))
    (some offset)
  (some ((ix : ℝ) * spacing - offset), some ((iy : ℝ) * spacing - offset), zShifted)

/-- Body of one iteration of the nested `ix, iy, iz` loops of
`getOtherLayoutPositions`: the normalised and centred coordinates followed by
the layout `switch`.  `i` is the running linear write index. -/
noncomputable def cellPosition (layout : Layout) (count N : ℕ)
    (spacing cubeSize timeOffset : ℝ) (ix iy iz i : ℕ) : JReal × JReal × JReal :=
  let u0 := normU0 N ix
  let v0 := normU0 N iy
  let w0 := normW0 N iz timeOffset
  let uc := JReal.sub (JReal.mul u0 (some 2)) (some 1)
  let vc := JReal.sub (JReal.mul v0 (some 2)) (some 1)
  let wc := JReal.sub (JReal.mul w0 (some 2)) (some 1)
  let scale : ℝ := N * spacing * 0.5
  match layout with
  | .sphere => spherePos count N spacing timeOffset i
  | .cylinder => cylinderPos count N spacing cubeSize timeOffset i
  | .scatter => scatterPos count N spacing timeOffset i
  | .ellipticCylinder => ellipticCylinderPos scale u0 v0 wc
  | .parabolicCylinder => parabolicCylinderPos scale uc vc wc
  | .paraboloidal => paraboloidalPos scale u0 v0 w0
  | .ellipsoidal => ellipsoidalPos scale u0 v0 wc ix iy iz
  | .oblateSpheroidal => oblateSpheroidalPos scale u0 vc w0
  | .prolateSpheroidal => prolateSpheroidalPos scale u0 v0 w0
  | .bispherical => bisphericalPos scale uc v0 w0
  | .conical => conicalPos N scale cubeSize uc v0 w0
  | .cube => cubePos N spacing ix iy w0

/-- The full layout generator: the flat sequence of coordinate values the
triple loop writes into the `Float32Array` (`timeOffset = startHour / 24`,
linear write index `i = ix*N² + iy*N + iz`).  At the call sites
`count = N³`, so this list is exactly the content of the returned array. -/
noncomputable def getOtherLayoutPositions (type : String) (count N : ℕ)
    (spacing cubeSize startHour : ℝ) : List JReal :=
  (List.range N).flatMap fun ix =>
    (List.range N).flatMap fun iy =>
      (List.range N).flatMap fun iz =>
        let i := (ix * N + iy) * N + iz
        let p := cellPosition (parseLayout type) count N spacing cubeSize (startHour / 24)
          ix iy iz i
        [p.1, p.2.1, p.2.2]

theorem jtrunc_of_nonneg {x : ℝ} (hx : 0 ≤ x) : jtrunc x = (⌊x⌋ : ℝ) := if_pos hx

/-- JavaScript `%` on a natural number dividend and divisor agrees with
`Nat.mod`. -/
theorem jmod_natCast (i count : ℕ) (h : count ≠ 0) :
    JReal.mod (some (i : ℝ)) (some (count : ℝ)) = some ((i % count : ℕ) : ℝ) := by
  have hc : ((count : ℝ)) ≠ 0 := Nat.cast_ne_zero.mpr h
  rw [JReal.mod_some _ _ hc]
  congr 1
  rw [jtrunc_of_nonneg (by positivity)]
  have hfl : ⌊(i : ℝ) / (count : ℝ)⌋ = ((i / count : ℕ) : ℤ) := by
    rw [← Int.natCast_floor_eq_floor (by positivity)]
    exact congrArg _ (Nat.floor_div_eq_div (α := ℝ) i count)
  rw [hfl]
  have hdm : count * (i / count) + i % count = i := Nat.div_add_mod i count
  have hdm' : ((count : ℝ)) * ((i / count : ℕ) : ℝ) + ((i % count : ℕ) : ℝ) = (i : ℝ) := by
    exact_mod_cast congrArg (Nat.cast : ℕ → ℝ) hdm
  rw [Int.cast_natCast]
  linarith

theorem normU0_some (N ix : ℕ) (hN : 2 ≤ N) :
    normU0 N ix = some ((ix : ℝ) / ((N : ℝ) - 1)) := by
  have h2 : (2 : ℝ) ≤ (N : ℝ) := by exact_mod_cast hN
  exact JReal.div_some _ _ (by linarith)

/-- With `timeOffset = 0` and `iz < N` the wrap-around is the identity. -/
theorem normW0_zero (N iz : ℕ) (h : iz < N) :
    normW0 N iz 0 = some ((iz : ℝ) / (N : ℝ)) := by
  have hN0 : 0 < N := lt_of_le_of_lt (Nat.zero_le iz) h
  have hN : (N : ℝ) ≠ 0 := Nat.cast_ne_zero.mpr hN0.ne'
  have hfrac0 : (0 : ℝ) ≤ (iz : ℝ) / N := by positivity
  have hfrac1 : (iz : ℝ) / N < 1 := by
    rw [div_lt_one (by exact_mod_cast hN0)]
    exact_mod_cast h
  unfold normW0
  rw [JReal.div_some _ _ hN, JReal.add_some, add_zero, JReal.mod_some _ _ one_ne_zero]
  have htr : jtrunc ((iz : ℝ) / N / 1) = 0 := by
    rw [div_one, jtrunc_of_nonneg hfrac0,
      Int.floor_eq_zero_iff.mpr ⟨hfrac0, hfrac1⟩, Int.cast_zero]
  rw [htr]
  simp [not_lt.mpr hfrac0]

/-- The value subtracted off by a `% 1` remainder lies strictly between
`-1` and `1`. -/
theorem sub_jtrunc_bounds (a : ℝ) :
    -1 < a - 1 * jtrunc (a / 1) ∧ a - 1 * jtrunc (a / 1) < 1 := by
  rw [div_one, one_mul, jtrunc]
  split
  · have h1 := Int.floor_le a
    have h2 := Int.lt_floor_add_one a
    exact ⟨by linarith, by linarith⟩
  · have h1 := Int.le_ceil a
    have h2 := Int.ceil_lt_add_one a
    exact ⟨by linarith, by linarith⟩

/-- For any `timeOffset` the wrapped coordinate `w0` is a finite value
(in fact in `[0, 1)`), provided `N ≠ 0`. -/
theorem normW0_isSome (N iz : ℕ) (t : ℝ) (hN : N ≠ 0) :
    ∃ w : ℝ, normW0 N iz t = some w ∧ 0 ≤ w ∧ w < 1 := by
  have hNr : (N : ℝ) ≠ 0 := Nat.cast_ne_zero.mpr hN
  unfold normW0
  rw [JReal.div_some _ _ hNr, JReal.add_some, JReal.mod_some _ _ one_ne_zero]
  set a : ℝ := (iz : ℝ) / N + t with ha
  obtain ⟨hb1, hb2⟩ := sub_jtrunc_bounds a
  dsimp only
  by_cases hneg : a - 1 * jtrunc (a / 1) < 0
  · rw [if_pos hneg]
    exact ⟨_, rfl, by linarith, by linarith⟩
  · rw [if_neg hneg]
    exact ⟨_, rfl, by linarith [not_lt.mp hneg], hb2⟩

/-- The `default` branch of the `switch` is selected for the `'Cube'`
layout string. -/
theorem parseLayout_cube : parseLayout "Cube" = Layout.cube := by decide

theorem cellPosition_cube (count N : ℕ) (spacing cubeSize t : ℝ) (ix iy iz i : ℕ) :
    cellPosition Layout.cube count N spacing cubeSize t ix iy iz i =
      cubePos N spacing ix iy (normW0 N iz t) := rfl

/-- Claim C2, amended.  With `timeOffset = 0` the Cube case produces
`x = (ix - (N-1)/2)·s` and `y = (iy - (N-1)/2)·s` as the spec states, but
the third coordinate is `((iz/N)·(N-1) - (N-1)/2)·s`: the z-axis of the
lattice is compressed by a factor `(N-1)/N` relative to the claimed
`(iz - (N-1)/2)·s`. -/
theorem cubePos_closed_form (N : ℕ) (s c : ℝ) (ix iy iz i : ℕ)
    (hN : 1 ≤ N) (hz : iz < N) :
    cellPosition (parseLayout "Cube") (N ^ 3) N s c 0 ix iy iz i =
      (some (((ix : ℝ) - ((N : ℝ) - 1) / 2) * s),
       some (((iy : ℝ) - ((N : ℝ) - 1) / 2) * s),
       some (((iz : ℝ) / (N : ℝ) * ((N : ℝ) - 1) - ((N : ℝ) - 1) / 2) * s)) := by
  rw [parseLayout_cube, cellPosition_cube, normW0_zero N iz hz]
  unfold cubePos
  simp only [JReal.mul_some, JReal.sub_some, Prod.mk.injEq, Option.some.injEq]
  refine ⟨by ring, by ring, by ring⟩

/-- Predicate: all three coordinates of a generated position are finite. -/
def allSome (p : JReal × JReal × JReal) : Prop :=
  p.1.isSome ∧ p.2.1.isSome ∧ p.2.2.isSome

/-- Closed form of the Fibonacci-sphere case at `timeOffset = 0`. -/
theorem spherePos_eq (count N : ℕ) (spacing : ℝ) (i : ℕ) (hc : count ≠ 0) :
    spherePos count N spacing 0 i =
      (some ((N : ℝ) * spacing * 0.6 *
          Real.sin (Real.arccos (1 - 2 * (((i % count : ℕ) : ℝ) + 0.5) / count)) *
          Real.cos (Real.pi * (1 + Real.sqrt 5) * ((i % count : ℕ) : ℝ))),
       some ((N : ℝ) * spacing * 0.6 *
          Real.sin (Real.arccos (1 - 2 * (((i % count : ℕ) : ℝ) + 0.5) / count)) *
          Real.sin (Real.pi * (1 + Real.sqrt 5) * ((i % count : ℕ) : ℝ))),
       some ((N : ℝ) * spacing * 0.6 *
          Real.cos (Real.arccos (1 - 2 * (((i % count : ℕ) : ℝ) + 0.5) / count)))) := by
  have hc0 : 0 < count := Nat.pos_of_ne_zero hc
  have hcR : ((count : ℝ)) ≠ 0 := Nat.cast_ne_zero.mpr hc
  have hcR0 : (0 : ℝ) < (count : ℝ) := by exact_mod_cast hc0
  have hm : i % count < count := Nat.mod_lt i hc0
  have hmR : ((i % count : ℕ) : ℝ) ≤ (count : ℝ) - 1 := by
    have : (i % count) + 1 ≤ count := hm
    have := (Nat.cast_le (α := ℝ)).mpr this
    push_cast at this
    linarith
  have hm0 : (0 : ℝ) ≤ ((i % count : ℕ) : ℝ) := Nat.cast_nonneg _
  have harg₁ : -1 ≤ 1 - 2 * (((i % count : ℕ) : ℝ) + 0.5) / count := by
    have hle : 2 * (((i % count : ℕ) : ℝ) + 0.5) / count ≤ 2 := by
      rw [div_le_iff₀ hcR0]
      nlinarith
    linarith
  have harg₂ : 1 - 2 * (((i % count : ℕ) : ℝ) + 0.5) / count ≤ 1 := by
    have hdiv : 0 ≤ 2 * (((i % count : ℕ) : ℝ) + 0.5) / count := by positivity
    linarith
  simp only [spherePos]
  rw [show ((i : ℝ) + 0 * (count : ℝ)) = ((i : ℕ) : ℝ) by push_cast; ring]
  rw [jmod_natCast i count hc, JReal.add_some, JReal.mul_some,
    JReal.div_some _ _ hcR, JReal.sub_some, JReal.acos_some _ harg₁ harg₂]
  simp only [JReal.mul_some, JReal.sin_some, JReal.cos_some]

theorem spherePos_isSome (count N : ℕ) (spacing : ℝ) (i : ℕ) (hc : count ≠ 0) :
    allSome (spherePos count N spacing 0 i) := by
  rw [spherePos_eq count N spacing i hc]
  exact ⟨rfl, rfl, rfl⟩

theorem cylinderPos_isSome (count N : ℕ) (spacing cubeSize t : ℝ) (i : ℕ)
    (hc : count ≠ 0) (hN : 0 < N) (hsp : 0 < spacing) (hcs : 0 < cubeSize) :
    allSome (cylinderPos count N spacing cubeSize t i) := by
  have hcR : ((count : ℝ)) ≠ 0 := Nat.cast_ne_zero.mpr hc
  have hNR : (0 : ℝ) < (N : ℝ) := by exact_mod_cast hN
  have hiw : cubeSize * 1.2 ≠ 0 := by positivity
  have hcirc : 2 * Real.pi * ((N : ℝ) * spacing * 0.4) ≠ 0 := by positivity
  have hipt : 2 * Real.pi * ((N : ℝ) * spacing * 0.4) / (cubeSize * 1.2) ≠ 0 :=
    div_ne_zero hcirc hiw
  have h2 : (2 : ℝ) ≠ 0 := two_ne_zero
  rw [cylinderPos, JReal.mod_some _ _ hcR]
  simp only [JReal.div_some _ _ hcR, JReal.div_some _ _ hiw]
  rw [JReal.div_some _ _ hipt]
  simp only [JReal.mul_some]
  rw [JReal.div_some _ _ h2]
  simp only [JReal.mul_some, JReal.sub_some, JReal.cos_some, JReal.sin_some]
  exact ⟨rfl, rfl, rfl⟩

theorem scatterPos_isSome (count N : ℕ) (spacing t : ℝ) (i : ℕ) (hc : count ≠ 0) :
    allSome (scatterPos count N spacing t i) := by
  have hcR : ((count : ℝ)) ≠ 0 := Nat.cast_ne_zero.mpr hc
  have h1 : (1 : ℝ) ≠ 0 := one_ne_zero
  rw [scatterPos, JReal.mod_some _ _ hcR]
  simp only [JReal.floor_some, JReal.mul_some, scatterRand, JReal.sin_some]
  simp only [JReal.mod_some _ _ h1, JReal.sub_some, JReal.mul_some]
  exact ⟨rfl, rfl, rfl⟩

theorem ellipticCylinderPos_isSome (scale a b c : ℝ) :
    allSome (ellipticCylinderPos scale (some a) (some b) (some c)) :=
  ⟨rfl, rfl, rfl⟩

theorem parabolicCylinderPos_isSome (scale : ℝ) (hs : 0 ≤ scale) (a b c : ℝ) :
    allSome (parabolicCylinderPos scale (some a) (some b) (some c)) := by
  have h := JReal.sqrt_some (scale * 2) (by linarith)
  rw [parabolicCylinderPos, h]
  simp only [JReal.mul_some, JReal.sub_some]
  exact ⟨rfl, rfl, rfl⟩

theorem paraboloidalPos_isSome (scale : ℝ) (hs : 0 ≤ scale) (a b c : ℝ) :
    allSome (paraboloidalPos scale (some a) (some b) (some c)) := by
  have h := JReal.sqrt_some (scale * 2) (by linarith)
  rw [paraboloidalPos, h]
  simp only [JReal.mul_some, JReal.sub_some, JReal.cos_some, JReal.sin_some]
  exact ⟨rfl, rfl, rfl⟩

theorem ellipsoidalPos_isSome (scale a b c : ℝ) (ix iy iz : ℕ) :
    allSome (ellipsoidalPos scale (some a) (some b) (some c) ix iy iz) :=
  ⟨rfl, rfl, rfl⟩

theorem oblateSpheroidalPos_isSome (scale a b c : ℝ) :
    allSome (oblateSpheroidalPos scale (some a) (some b) (some c)) := by
  have h2 : (2 : ℝ) ≠ 0 := two_ne_zero
  rw [oblateSpheroidalPos]
  simp only [JReal.mul_some]
  rw [JReal.div_some _ _ h2]
  simp only [JReal.mul_some, JReal.add_some, JReal.cosh_some, JReal.sinh_some,
    JReal.cos_some, JReal.sin_some]
  exact ⟨rfl, rfl, rfl⟩

theorem prolateSpheroidalPos_isSome (scale a b c : ℝ) :
    allSome (prolateSpheroidalPos scale (some a) (some b) (some c)) :=
  ⟨rfl, rfl, rfl⟩

/-- The clamp keeps `u_safe` finite with magnitude at least `0.1`. -/
theorem bisphericalUSafe_spec (u : ℝ) :
    ∃ us : ℝ, bisphericalUSafe (some u) = some us ∧ 0.1 ≤ |us| := by
  by_cases h : |u| < 0.1
  · exact ⟨0.1, by simp [bisphericalUSafe, h], by rw [abs_of_pos] <;> norm_num⟩
  · exact ⟨u, by simp [bisphericalUSafe, h], not_lt.mp h⟩

/-- Away from `u = 0` the bispherical denominator is strictly positive. -/
theorem bisphericalDenom_pos (us v : ℝ) (h : 0.1 ≤ |us|) :
    0 < Real.cosh us - Real.cos v := by
  have h1 : us ≠ 0 := by
    intro h0
    rw [h0, abs_zero] at h
    norm_num at h
  have h2 : 1 < Real.cosh us := Real.one_lt_cosh.mpr h1
  have h3 := Real.cos_le_one v
  linarith

theorem bisphericalPos_isSome (scale a b c : ℝ) :
    allSome (bisphericalPos scale (some a) (some b) (some c)) := by
  obtain ⟨us, hus, habs⟩ := bisphericalUSafe_spec (a * 2.0)
  have hden : Real.cosh us - Real.cos (b * Real.pi * 0.9 + 0.05) ≠ 0 :=
    ne_of_gt (bisphericalDenom_pos us _ habs)
  rw [bisphericalPos]
  simp only [JReal.mul_some, JReal.add_some]
  rw [hus]
  simp only [JReal.cosh_some, JReal.sinh_some, JReal.cos_some, JReal.sin_some,
    JReal.sub_some, JReal.mul_some]
  rw [JReal.div_some _ _ hden, JReal.div_some _ _ hden, JReal.div_some _ _ hden]
  exact ⟨rfl, rfl, rfl⟩

theorem conicalPos_isSome (N : ℕ) (scale cubeSize a b c : ℝ) :
    allSome (conicalPos N scale cubeSize (some a) (some b) (some c)) :=
  ⟨rfl, rfl, rfl⟩

theorem cubePos_isSome (N : ℕ) (spacing : ℝ) (ix iy : ℕ) (w : ℝ) :
    allSome (cubePos N spacing ix iy (some w)) :=
  ⟨rfl, rfl, rfl⟩

/-- Any cell position produced by the generator is finite, for any layout
string, once `N ≥ 2` (so that the `ix/(N-1)` normalisations are not `0/0`),
positive `spacing` and `cubeSize`, `startHour = 0`, and a non-zero
instance count. -/
theorem cellPosition_isSome (L : Layout) (count N : ℕ) (spacing cubeSize : ℝ)
    (ix iy iz i : ℕ) (hc : count ≠ 0) (hN : 2 ≤ N) (hz : iz < N)
    (hsp : 0 < spacing) (hcs : 0 < cubeSize) :
    allSome (cellPosition L count N spacing cubeSize 0 ix iy iz i) := by
  have hN0 : 0 < N := by omega
  have hNR : (0 : ℝ) < (N : ℝ) := by exact_mod_cast hN0
  have hscale : (0 : ℝ) ≤ (N : ℝ) * spacing * 0.5 := by positivity
  have hu := normU0_some N ix hN
  have hv := normU0_some N iy hN
  have hw := normW0_zero N iz hz
  cases L with
  | sphere => exact spherePos_isSome count N spacing i hc
  | cylinder => exact cylinderPos_isSome count N spacing cubeSize 0 i hc hN0 hsp hcs
  | scatter => exact scatterPos_isSome count N spacing 0 i hc
  | ellipticCylinder =>
    show allSome (ellipticCylinderPos _ _ _ _)
    rw [hu, hv, hw]
    simp only [JReal.mul_some, JReal.sub_some]
    exact ellipticCylinderPos_isSome _ _ _ _
  | parabolicCylinder =>
    show allSome (parabolicCylinderPos _ _ _ _)
    rw [hu, hv, hw]
    simp only [JReal.mul_some, JReal.sub_some]
    exact parabolicCylinderPos_isSome _ hscale _ _ _
  | paraboloidal =>
    show allSome (paraboloidalPos _ _ _ _)
    rw [hu, hv, hw]
    exact paraboloidalPos_isSome _ hscale _ _ _
  | ellipsoidal =>
    show allSome (ellipsoidalPos _ _ _ _ ix iy iz)
    rw [hu, hv, hw]
    simp only [JReal.mul_some, JReal.sub_some]
    exact ellipsoidalPos_isSome _ _ _ _ ix iy iz
  | oblateSpheroidal =>
    show allSome (oblateSpheroidalPos _ _ _ _)
    rw [hu, hv, hw]
    simp only [JReal.mul_some, JReal.sub_some]
    exact oblateSpheroidalPos_isSome _ _ _ _
  | prolateSpheroidal =>
    show allSome (prolateSpheroidalPos _ _ _ _)
    rw [hu, hv, hw]
    exact prolateSpheroidalPos_isSome _ _ _ _
  | bispherical =>
    show allSome (bisphericalPos _ _ _ _)
    rw [hu, hv, hw]
    simp only [JReal.mul_some, JReal.sub_some]
    exact bisphericalPos_isSome _ _ _ _
  | conical =>
    show allSome (conicalPos N _ _ _ _ _)
    rw [hu, hv, hw]
    simp only [JReal.mul_some, JReal.sub_some]
    exact conicalPos_isSome N _ _ _ _ _
  | cube =>
    show allSome (cubePos N spacing ix iy _)
    rw [hw]
    exact cubePos_isSome N spacing ix iy _

theorem length_flatMap_const {α β : Type} (l : List α) (f : α → List β) (k : ℕ)
    (h : ∀ a, (f a).length = k) : (l.flatMap f).length = l.length * k := by
  induction l with
  | nil => simp
  | cons a t ih =>
    simp only [List.flatMap_cons, List.length_append, h, ih, List.length_cons]
    ring

/-- The generated list has exactly `N³ · 3` entries. -/
theorem getOtherLayoutPositions_length (type : String) (count N : ℕ)
    (spacing cubeSize startHour : ℝ) :
    (getOtherLayoutPositions type count N spacing cubeSize startHour).length =
      N ^ 3 * 3 := by
  unfold getOtherLayoutPositions
  rw [length_flatMap_const _ _ (N * (N * 3)) fun ix => by
      rw [length_flatMap_const _ _ (N * 3) fun iy => by
          rw [length_flatMap_const _ _ 3 fun iz => by simp, List.length_range],
        List.length_range],
    List.length_range]
  ring

/-- Every element of the generated list is one coordinate of a cell
position with in-range grid indices. -/
theorem mem_getOtherLayoutPositions (type : String) (count N : ℕ)
    (spacing cubeSize startHour : ℝ) (v : JReal)
    (hv : v ∈ getOtherLayoutPositions type count N spacing cubeSize startHour) :
    ∃ ix iy iz : ℕ, ix < N ∧ iy < N ∧ iz < N ∧
      (v = (cellPosition (parseLayout type) count N spacing cubeSize (startHour / 24)
          ix iy iz ((ix * N + iy) * N + iz)).1 ∨
       v = (cellPosition (parseLayout type) count N spacing cubeSize (startHour / 24)
          ix iy iz ((ix * N + iy) * N + iz)).2.1 ∨
       v = (cellPosition (parseLayout type) count N spacing cubeSize (startHour / 24)
          ix iy iz ((ix * N + iy) * N + iz)).2.2) := by
  simp only [getOtherLayoutPositions, List.mem_flatMap, List.mem_range] at hv
  obtain ⟨ix, hix, iy, hiy, iz, hiz, hmem⟩ := hv
  refine ⟨ix, iy, iz, hix, hiy, hiz, ?_⟩
  simpa using hmem

/-- Claim C1, amended: for every layout string (the twelve named layouts
and, via the `default` case, any other string) and every grid size
`N ∈ [2, 24]`, calling the generator with `count = N³`, positive spacing
and cube size and `startHour = 0` returns exactly `N³·3` values, each of
which is finite.  (The claim's range `[1, 24]` fails at `N = 1`, where
`ix/(N-1)` is `0/0`; see the counterexample.) -/
theorem C1_layout_finite (type : String) (N : ℕ) (spacing cubeSize : ℝ)
    (hN2 : 2 ≤ N) (hN24 : N ≤ 24) (hsp : 0 < spacing) (hcs : 0 < cubeSize) :
    (getOtherLayoutPositions type (N ^ 3) N spacing cubeSize 0).length = N ^ 3 * 3 ∧
    ∀ v ∈ getOtherLayoutPositions type (N ^ 3) N spacing cubeSize 0, v.isSome := by
  refine ⟨getOtherLayoutPositions_length type (N ^ 3) N spacing cubeSize 0, ?_⟩
  intro v hv
  obtain ⟨ix, iy, iz, hix, hiy, hiz, hcase⟩ :=
    mem_getOtherLayoutPositions type (N ^ 3) N spacing cubeSize 0 v hv
  have hc : N ^ 3 ≠ 0 := pow_ne_zero 3 (by omega)
  have h := cellPosition_isSome (parseLayout type) (N ^ 3) N spacing cubeSize
    ix iy iz ((ix * N + iy) * N + iz) hc hN2 hiz hsp hcs
  rw [show (0 : ℝ) / 24 = 0 from zero_div 24] at hcase
  rcases hcase with h1 | h1 | h1 <;> rw [h1]
  · exact h.1
  · exact h.2.1
  · exact h.2.2

theorem C1_layout_finite_witness :
    (getOtherLayoutPositions "Sphere" (2 ^ 3) 2 1 1 0).length = 2 ^ 3 * 3 ∧
    ∀ v ∈ getOtherLayoutPositions "Sphere" (2 ^ 3) 2 1 1 0, v.isSome :=
  C1_layout_finite "Sphere" 2 1 1 (by norm_num) (by norm_num) (by norm_num) (by norm_num)

/-- Claim C1, counterexample: at `N = 1` (inside the claimed range
`[1, 24]`), the `'Elliptic Cylinder'` layout evaluates `u0 = 0/(1-1)`,
a `0/0 = NaN`, and the generated x-coordinate is not finite. -/
theorem C1_counterexample :
    ¬ ∀ v ∈ getOtherLayoutPositions "Elliptic Cylinder" (1 ^ 3) 1 1 1 0, v.isSome := by
  intro h
  have hu0 : normU0 1 0 = none := by
    simp [normU0, JReal.div]
  have hparse : parseLayout "Elliptic Cylinder" = Layout.ellipticCylinder := by decide
  have hx : (cellPosition (parseLayout "Elliptic Cylinder") (1 ^ 3) 1 1 1 (0 / 24)
      0 0 0 0).1 = none := by
    rw [hparse]
    show (ellipticCylinderPos _ (normU0 1 0) (normU0 1 0) _).1 = none
    rw [hu0]
    simp [ellipticCylinderPos]
  have hmem : (cellPosition (parseLayout "Elliptic Cylinder") (1 ^ 3) 1 1 1 (0 / 24)
      0 0 0 0).1 ∈ getOtherLayoutPositions "Elliptic Cylinder" (1 ^ 3) 1 1 1 0 := by
    simp only [getOtherLayoutPositions, List.mem_flatMap, List.mem_range]
    exact ⟨0, by norm_num, 0, by norm_num, 0, by norm_num, by simp⟩
  have := h _ hmem
  rw [hx] at this
  simp at this

theorem cubePos_closed_form_witness :
    cellPosition (parseLayout "Cube") (2 ^ 3) 2 1 1 0 0 0 1 1 =
      (some (-(1 / 2 : ℝ)), some (-(1 / 2 : ℝ)), some 0) := by
  have h := cubePos_closed_form 2 1 1 0 0 1 1 (by norm_num) (by norm_num)
  rw [h]
  norm_num

/-- Claim C2, counterexample: at `N = 2`, `spacing = 1`, cell
`(ix,iy,iz) = (0,0,1)`, the code produces `z = 0` while the claim predicts
`z = (iz - (N-1)/2)·s = 1/2`. -/
theorem C2_counterexample :
    (cellPosition (parseLayout "Cube") (2 ^ 3) 2 1 1 0 0 0 1 1).2.2 ≠
      some (((1 : ℝ) - ((2 : ℝ) - 1) / 2) * 1) := by
  rw [parseLayout_cube, cellPosition_cube, normW0_zero 2 1 (by norm_num)]
  norm_num [cubePos]

/-- Claim C6: every Fibonacci-sphere position lies at distance
`N·spacing·0.6` from the origin (exactly, in the real-number model),
for every instance count ≥ 1 and every linear instance index, at the
default `startHour = 0`. -/
theorem C6_sphere_radius (count N : ℕ) (spacing : ℝ) (i : ℕ)
    (hc : 1 ≤ count) (hs : 0 ≤ spacing) :
    ∃ x y z : ℝ, spherePos count N spacing 0 i = (some x, some y, some z) ∧
      Real.sqrt (x ^ 2 + y ^ 2 + z ^ 2) = (N : ℝ) * spacing * 0.6 := by
  have heq := spherePos_eq count N spacing i (by omega)
  refine ⟨_, _, _, heq, ?_⟩
  set A := Real.arccos (1 - 2 * (((i % count : ℕ) : ℝ) + 0.5) / count) with hA
  set T := Real.pi * (1 + Real.sqrt 5) * ((i % count : ℕ) : ℝ) with hT
  set r : ℝ := (N : ℝ) * spacing * 0.6 with hr
  have h1 := Real.sin_sq_add_cos_sq T
  have h2 := Real.sin_sq_add_cos_sq A
  have hsq : (r * Real.sin A * Real.cos T) ^ 2 + (r * Real.sin A * Real.sin T) ^ 2 +
      (r * Real.cos A) ^ 2 = r ^ 2 := by
    linear_combination (r ^ 2 * Real.sin A ^ 2) * h1 + r ^ 2 * h2
  rw [hsq]
  exact Real.sqrt_sq (by positivity)

theorem C6_witness :
    ∃ x y z : ℝ, spherePos 1 1 1 0 0 = (some x, some y, some z) ∧
      Real.sqrt (x ^ 2 + y ^ 2 + z ^ 2) = ((1 : ℕ) : ℝ) * 1 * 0.6 :=
  C6_sphere_radius 1 1 1 0 (by norm_num) (by norm_num)

/-- Claim C8: for the Bispherical layout with `N ≥ 2`, the clamped
parameter `u_safe` always has magnitude at least `0.1`, `v` lies in
`[0.05, 0.9·π + 0.05]`, the denominator `cosh u_safe - cos v` is strictly
positive, and every generated coordinate is finite — for any `startHour`,
spacing, cube size and count; the singularity is handled purely by the
local clamp. -/
theorem C8_bispherical_safe (count N : ℕ) (spacing cubeSize startHour : ℝ)
    (ix iy iz i : ℕ) (hN : 2 ≤ N) (hx : ix < N) (hy : iy < N) :
    ∃ u v : ℝ,
      bisphericalUSafe (JReal.mul (JReal.sub (JReal.mul (normU0 N ix) (some 2)) (some 1))
        (some 2.0)) = some u ∧
      0.1 ≤ |u| ∧
      JReal.add (JReal.mul (JReal.mul (normU0 N iy) (some Real.pi)) (some 0.9))
        (some 0.05) = some v ∧
      0.05 ≤ v ∧ v ≤ 0.9 * Real.pi + 0.05 ∧
      0 < Real.cosh u - Real.cos v ∧
      allSome (cellPosition Layout.bispherical count N spacing cubeSize
        (startHour / 24) ix iy iz i) := by
  have hN0 : N ≠ 0 := by omega
  have hNR : (2 : ℝ) ≤ (N : ℝ) := by exact_mod_cast hN
  have hden1 : (0 : ℝ) < (N : ℝ) - 1 := by linarith
  have hu := normU0_some N ix hN
  have hv := normU0_some N iy hN
  obtain ⟨w0v, hw0, _, _⟩ := normW0_isSome N iz (startHour / 24) hN0
  have hv0le : ((iy : ℝ)) / ((N : ℝ) - 1) ≤ 1 := by
    rw [div_le_one hden1]
    have : (iy : ℝ) ≤ (N : ℝ) - 1 := by
      have : ((iy : ℝ)) + 1 ≤ (N : ℝ) := by exact_mod_cast hy
      linarith
    linarith
  have hv00 : (0 : ℝ) ≤ ((iy : ℝ)) / ((N : ℝ) - 1) := by positivity
  rw [hu, hv]
  simp only [JReal.mul_some, JReal.sub_some, JReal.add_some]
  obtain ⟨us, hus, habs⟩ := bisphericalUSafe_spec (((ix : ℝ) / ((N : ℝ) - 1) * 2 - 1) * 2.0)
  refine ⟨us, (iy : ℝ) / ((N : ℝ) - 1) * Real.pi * 0.9 + 0.05, hus, habs, rfl, ?_, ?_,
    bisphericalDenom_pos us _ habs, ?_⟩
  · nlinarith [Real.pi_pos]
  · nlinarith [Real.pi_pos]
  · show allSome (bisphericalPos _ _ _ _)
    rw [hu, hv, hw0]
    simp only [JReal.mul_some, JReal.sub_some]
    exact bisphericalPos_isSome _ _ _ _

theorem C8_witness :
    ∃ u v : ℝ,
      bisphericalUSafe (JReal.mul (JReal.sub (JReal.mul (normU0 2 0) (some 2)) (some 1))
        (some 2.0)) = some u ∧
      0.1 ≤ |u| ∧
      JReal.add (JReal.mul (JReal.mul (normU0 2 0) (some Real.pi)) (some 0.9))
        (some 0.05) = some v ∧
      0.05 ≤ v ∧ v ≤ 0.9 * Real.pi + 0.05 ∧
      0 < Real.cosh u - Real.cos v ∧
      allSome (cellPosition Layout.bispherical 8 2 1 1 ((0 : ℝ) / 24) 0 0 0 0) :=
  C8_bispherical_safe 8 2 1 1 0 0 0 0 0 (by norm_num) (by norm_num) (by norm_num)

/-- Natural-number model of `Math.ceil(Math.sqrt(count))`. -/
def ceilSqrt (n : ℕ) : ℕ :=
  if Nat.sqrt n * Nat.sqrt n = n then Nat.sqrt n else Nat.sqrt n + 1

/-- `cols = Math.ceil(Math.sqrt(count))` in `createAtlas`. -/
def atlasCols (count : ℕ) : ℕ := ceilSqrt count

/-- `rows = Math.ceil(count / cols)` in `createAtlas`. -/
def atlasRows (count : ℕ) : ℕ := (count + atlasCols count - 1) / atlasCols count

/-- The natural-number model agrees with the real ceiling of the real
square root (JavaScript computes `Math.sqrt` on a float). -/
theorem ceilSqrt_eq (n : ℕ) : ceilSqrt n = ⌈Real.sqrt n⌉₊ := by
  unfold ceilSqrt
  set s := Nat.sqrt n with hs
  by_cases h : s * s = n
  · rw [if_pos h]
    have hsq : Real.sqrt n = s := by
      rw [← h]
      push_cast
      exact Real.sqrt_mul_self (Nat.cast_nonneg s)
    rw [hsq, Nat.ceil_natCast]
  · rw [if_neg h]
    have h1 : s * s < n := lt_of_le_of_ne (Nat.sqrt_le n) h
    have h2 : n < (s + 1) * (s + 1) := by
      have := Nat.lt_succ_sqrt n
      simpa [Nat.succ_eq_add_one, hs] using this
    have h2' : (n : ℝ) < ((s : ℝ) + 1) ^ 2 := by
      have hc := (Nat.cast_lt (α := ℝ)).mpr h2
      push_cast at hc
      nlinarith [hc]
    have h1' : ((s : ℝ)) * s < n := by exact_mod_cast h1
    have hlow : (s : ℝ) < Real.sqrt n := by
      rw [Real.lt_sqrt (Nat.cast_nonneg s)]
      nlinarith [h1']
    have hhigh : Real.sqrt n < (s : ℝ) + 1 := (Real.sqrt_lt' (by positivity)).mpr h2'
    symm
    rw [Nat.ceil_eq_iff (by omega)]
    constructor
    · push_cast
      simpa using hlow
    · push_cast
      linarith

/-- Result of the atlas builder: the grid metrics together with the cell
contents of the packed canvas.  `cell c r` is the image drawn into grid
cell `(c, r)`, or `none` when that cell was left blank (failed load, or a
cell beyond the image list). -/
structure Atlas (α : Type) where
  cols : ℕ
  rows : ℕ
  total : ℕ
  cell : ℕ → ℕ → Option α

/-- Shallow model of `createAtlas`.  The parallel image loads are given as
a list `loads`, where `loads[i] = none` models a failed load (the
`onerror` handler resolves `null` instead of rejecting, so one failure
never aborts the whole build).  Image `i` is drawn at grid cell
`(i % cols, ⌊i / cols⌋)`; cells receiving no draw stay blank. -/
def createAtlas {α : Type} (loads : List (Option α)) : Atlas α :=
  { cols := atlasCols loads.length
    rows := atlasRows loads.length
    total := loads.length
    cell := fun c r =>
      if c < atlasCols loads.length then loads.getD (r * atlasCols loads.length + c) none
      else none }

theorem atlasCols_twelve : atlasCols 12 = 4 := by
  have hsqrt12 : Nat.sqrt 12 = 3 := (Nat.eq_sqrt.mpr (by norm_num)).symm
  unfold atlasCols ceilSqrt
  rw [hsqrt12]
  norm_num

theorem atlasRows_twelve : atlasRows 12 = 3 := by
  unfold atlasRows
  rw [atlasCols_twelve]

/-- A concrete 12-image load result with exactly one failed load. -/
def exampleLoads : List (Option ℕ) :=
  [some 0, some 1, some 2, some 3, some 4, some 5, some 6, some 7, some 8,
   some 9, some 10, none]

/-- Claim C7: with 12 images the atlas grid is `cols = 4`, `rows = 3`;
when exactly one image fails to load the dimensions are unchanged, the
failed image's cell is blank, and every other cell is populated — the
build always completes. -/
theorem C7_atlas_degrade {α : Type} (loads : List (Option α)) (j : ℕ)
    (hlen : loads.length = 12) (hj : j < 12)
    (hfail : loads.getD j none = none)
    (hok : ∀ i < 12, i ≠ j → (loads.getD i none).isSome) :
    (createAtlas loads).cols = 4 ∧ (createAtlas loads).rows = 3 ∧
    (createAtlas loads).cell (j % 4) (j / 4) = none ∧
    ∀ i < 12, i ≠ j → ((createAtlas loads).cell (i % 4) (i / 4)).isSome := by
  have hcols : (createAtlas loads).cols = 4 := by
    show atlasCols loads.length = 4
    rw [hlen]
    exact atlasCols_twelve
  have hrows : (createAtlas loads).rows = 3 := by
    show atlasRows loads.length = 3
    rw [hlen]
    exact atlasRows_twelve
  have hcols' : atlasCols loads.length = 4 := hcols
  refine ⟨hcols, hrows, ?_, ?_⟩
  · show (if j % 4 < atlasCols loads.length then
        loads.getD (j / 4 * atlasCols loads.length + j % 4) none else none) = none
    rw [hcols']
    rw [if_pos (Nat.mod_lt j (by norm_num))]
    rw [show j / 4 * 4 + j % 4 = j by omega]
    exact hfail
  · intro i hi hne
    show (if i % 4 < atlasCols loads.length then
        loads.getD (i / 4 * atlasCols loads.length + i % 4) none else none).isSome
    rw [hcols']
    rw [if_pos (Nat.mod_lt i (by norm_num))]
    rw [show i / 4 * 4 + i % 4 = i by omega]
    exact hok i hi hne

theorem C7_witness :
    (createAtlas exampleLoads).cols = 4 ∧ (createAtlas exampleLoads).rows = 3 ∧
    (createAtlas exampleLoads).cell (11 % 4) (11 / 4) = none ∧
    ∀ i < 12, i ≠ 11 → ((createAtlas exampleLoads).cell (i % 4) (i / 4)).isSome :=
  C7_atlas_degrade exampleLoads 11 (by decide) (by decide) (by decide) (by decide)

/-- Claim C10: for any image list with `count ≥ 1`, the grid
`cols = ceil(sqrt count)`, `rows = ceil(count / cols)` satisfies
`cols·rows ≥ count`, and every image index `i < count` maps to cell
`(i % cols, ⌊i / cols⌋)` strictly inside the `cols × rows` canvas, with
its image landing in exactly that cell — no image is dropped and no draw
lands outside the texture. -/
theorem C10_atlas_grid {α : Type} (loads : List (Option α)) (hc : 1 ≤ loads.length) :
    1 ≤ atlasCols loads.length ∧
    loads.length ≤ atlasCols loads.length * atlasRows loads.length ∧
    ∀ i < loads.length,
      i % atlasCols loads.length < atlasCols loads.length ∧
      i / atlasCols loads.length < atlasRows loads.length ∧
      (createAtlas loads).cell (i % atlasCols loads.length)
        (i / atlasCols loads.length) = loads.getD i none := by
  set n := loads.length with hn
  set c := atlasCols n with hcdef
  have hc1 : 1 ≤ c := by
    rw [hcdef]
    unfold atlasCols ceilSqrt
    split
    · have : 0 < Nat.sqrt n := Nat.sqrt_pos.mpr (by omega)
      omega
    · omega
  have hcount : n ≤ c * atlasRows n := by
    have hrows : atlasRows n = (n + c - 1) / c := rfl
    rw [hrows]
    set q := (n + c - 1) / c with hqdef
    set r := (n + c - 1) % c with hrdef
    have hq : c * q + r = n + c - 1 := Nat.div_add_mod (n + c - 1) c
    have hr : r < c := Nat.mod_lt _ (by omega)
    set m := c * q with hmdef
    omega
  refine ⟨hc1, hcount, ?_⟩
  intro i hi
  have hmod : i % c < c := Nat.mod_lt i (by omega)
  have hdiv : i / c < atlasRows n := by
    rw [Nat.div_lt_iff_lt_mul (by omega)]
    calc i < n := hi
    _ ≤ c * atlasRows n := hcount
    _ = atlasRows n * c := Nat.mul_comm _ _
  refine ⟨hmod, hdiv, ?_⟩
  show (if i % c < c then loads.getD (i / c * c + i % c) none else none) = loads.getD i none
  rw [if_pos hmod, Nat.div_add_mod' i c]

theorem C10_witness :
    1 ≤ atlasCols exampleLoads.length ∧
    exampleLoads.length ≤ atlasCols exampleLoads.length * atlasRows exampleLoads.length ∧
    ∀ i < exampleLoads.length,
      i % atlasCols exampleLoads.length < atlasCols exampleLoads.length ∧
      i / atlasCols exampleLoads.length < atlasRows exampleLoads.length ∧
      (createAtlas exampleLoads).cell (i % atlasCols exampleLoads.length)
        (i / atlasCols exampleLoads.length) = exampleLoads.getD i none :=
  C10_atlas_grid exampleLoads (by decide)

/-- Events of the frame-export loop of `useFrameRecorder`. -/
inductive ExportEvent
  | capture (frame : ℕ)
  | persistStart (frame : ℕ)
  | persistEnd (frame : ℕ) (ok : Bool)
deriving DecidableEq, Repr

/-- Trace of `processFrame`, driven by a persistence sink oracle
(`sink frame = true` when `/api/save-frame` succeeds for that frame).
Each round captures the canvas, issues the persistence request and awaits
it; on success it advances to the next frame and recurses, on a rejected
upload it stops recording (the whole export aborts).  The fuel argument is
`totalFrames - frame`, the number of frames still to process; the
JavaScript loop terminates through its `frame >= totalFrames` guard.
JavaScript `await` sequences the continuation after the settled promise,
so the single-threaded run is this sequential trace. -/
def processFrames (sink : ℕ → Bool) : ℕ → ℕ → List ExportEvent
  | 0, _ => []
  | fuel + 1, frame =>
    ExportEvent.capture frame :: ExportEvent.persistStart frame ::
      (if sink frame then
        ExportEvent.persistEnd frame true :: processFrames sink fuel (frame + 1)
      else [ExportEvent.persistEnd frame false])

/-- The full export starting at frame 0, as `startRecording` does. -/
def exportRun (sink : ℕ → Bool) (totalFrames : ℕ) : List ExportEvent :=
  processFrames sink totalFrames 0

/-- The frames for which a persistence request was issued, in trace
order. -/
def persistCalls : List ExportEvent → List ℕ
  | [] => []
  | ExportEvent.persistStart f :: rest => f :: persistCalls rest
  | _ :: rest => persistCalls rest

@[simp] theorem persistCalls_nil : persistCalls [] = [] := rfl

@[simp] theorem persistCalls_capture (f : ℕ) (rest : List ExportEvent) :
    persistCalls (ExportEvent.capture f :: rest) = persistCalls rest := rfl

@[simp] theorem persistCalls_start (f : ℕ) (rest : List ExportEvent) :
    persistCalls (ExportEvent.persistStart f :: rest) = f :: persistCalls rest := rfl

@[simp] theorem persistCalls_end (f : ℕ) (b : Bool) (rest : List ExportEvent) :
    persistCalls (ExportEvent.persistEnd f b :: rest) = persistCalls rest := rfl

theorem persistCalls_processFrames (sink : ℕ → Bool) :
    ∀ fuel frame, ∃ n ≤ fuel,
      persistCalls (processFrames sink fuel frame) = List.range' frame n := by
  intro fuel
  induction fuel with
  | zero => exact fun frame => ⟨0, le_refl 0, rfl⟩
  | succ fuel ih =>
    intro frame
    by_cases hs : sink frame = true
    · obtain ⟨n, hn, heq⟩ := ih (frame + 1)
      refine ⟨n + 1, by omega, ?_⟩
      rw [processFrames, if_pos hs]
      simp only [persistCalls_capture, persistCalls_start, persistCalls_end, heq,
        List.range'_succ]
    · refine ⟨1, by omega, ?_⟩
      rw [processFrames, if_neg hs]
      simp [List.range'_succ]

theorem persistCalls_stop (sink : ℕ → Bool) (k : ℕ) (hk : sink k = false) :
    ∀ fuel frame, frame ≤ k →
      (k + 1) ∉ persistCalls (processFrames sink fuel frame) := by
  intro fuel
  induction fuel with
  | zero => intro frame _ h; simp [processFrames] at h
  | succ fuel ih =>
    intro frame hframe h
    by_cases hs : sink frame = true
    · rw [processFrames, if_pos hs] at h
      simp only [persistCalls_capture, persistCalls_start, List.mem_cons] at h
      rcases h with h | h
      · omega
      · have hne : frame ≠ k := by
          intro he
          rw [he, hk] at hs
          simp at hs
        rw [persistCalls_end] at h
        exact ih (frame + 1) (by omega) h
    · rw [processFrames, if_neg hs] at h
      simp only [persistCalls_capture, persistCalls_start, persistCalls_end,
        persistCalls_nil, List.mem_cons, List.not_mem_nil, or_false] at h
      omega

theorem capture_succ_ordering (sink : ℕ → Bool) (k : ℕ) :
    ∀ fuel frame, frame ≤ k →
      ExportEvent.capture (k + 1) ∈ processFrames sink fuel frame →
      List.Sublist [ExportEvent.capture k, ExportEvent.persistStart k,
        ExportEvent.persistEnd k true, ExportEvent.capture (k + 1)]
        (processFrames sink fuel frame) := by
  intro fuel
  induction fuel with
  | zero => intro frame _ h; simp [processFrames] at h
  | succ fuel ih =>
    intro frame hframe hmem
    rw [processFrames] at hmem ⊢
    by_cases hs : sink frame = true
    · rw [if_pos hs] at hmem ⊢
      have hmem' : ExportEvent.capture (k + 1) ∈ processFrames sink fuel (frame + 1) := by
        simp only [List.mem_cons] at hmem
        rcases hmem with h | h | h | h
        · exfalso
          rw [ExportEvent.capture.injEq] at h
          omega
        · exact absurd h (by simp)
        · exact absurd h (by simp)
        · exact h
      rcases Nat.lt_or_ge frame k with hlt | hge
      · exact (((ih (frame + 1) (by omega) hmem').cons _).cons _).cons _
      · have hfk : frame = k := by omega
        subst hfk
        refine List.Sublist.cons₂ _ (List.Sublist.cons₂ _ (List.Sublist.cons₂ _ ?_))
        exact List.singleton_sublist.mpr hmem'
    · rw [if_neg hs] at hmem
      exfalso
      simp only [List.mem_cons, List.not_mem_nil, or_false] at hmem
      rcases hmem with h | h | h
      · rw [ExportEvent.capture.injEq] at h
        omega
      · exact absurd h (by simp)
      · exact absurd h (by simp)

/-- Claim C3: in the export trace, persistence requests are issued
strictly sequentially in increasing frame order (exactly frames
`0, 1, ..., n-1` for some `n ≤ totalFrames`); a persistence failure on
frame `k` means no request for frame `k+1` is ever issued; and whenever
frame `k+1` is captured, the capture, request and successful completion
of frame `k`'s persistence all precede it in trace order. -/
theorem C3_export_sequential (sink : ℕ → Bool) (totalFrames : ℕ) :
    (∃ n ≤ totalFrames, persistCalls (exportRun sink totalFrames) = List.range n) ∧
    (∀ k, sink k = false → (k + 1) ∉ persistCalls (exportRun sink totalFrames)) ∧
    (∀ k, ExportEvent.capture (k + 1) ∈ exportRun sink totalFrames →
      List.Sublist [ExportEvent.capture k, ExportEvent.persistStart k,
        ExportEvent.persistEnd k true, ExportEvent.capture (k + 1)]
        (exportRun sink totalFrames)) := by
  refine ⟨?_, ?_, ?_⟩
  · obtain ⟨n, hn, heq⟩ := persistCalls_processFrames sink totalFrames 0
    refine ⟨n, hn, ?_⟩
    rw [exportRun, heq, List.range_eq_range']
  · intro k hk
    exact persistCalls_stop sink k hk totalFrames 0 (Nat.zero_le k)
  · intro k hmem
    exact capture_succ_ordering sink k totalFrames 0 (Nat.zero_le k) hmem

theorem C3_witness :
    (∃ n ≤ 30, persistCalls (exportRun (fun k => k == 0) 30) = List.range n) ∧
    2 ∉ persistCalls (exportRun (fun k => k == 0) 30) := by
  have h := C3_export_sequential (fun k => k == 0) 30
  refine ⟨h.1, ?_⟩
  have h2 := h.2.1 1 (by decide)
  simpa using h2

/-- Keyframe camera in spherical coordinates (`camera.spherical`,
degrees in the newer scene files). -/
structure SphericalCamera where
  radius : ℝ
  theta : ℝ
  phi : ℝ

/-- Keyframe configuration payload. -/
structure KeyframeConfig where
  layout : String
  N : ℕ
  spacing : ℝ
  cubeSize : ℝ
  startHour : ℝ

/-- One authored keyframe `(time, camera, config)`. -/
structure Keyframe where
  time : ℝ
  camera : SphericalCamera
  config : KeyframeConfig

noncomputable instance : Inhabited Keyframe :=
  ⟨⟨0, ⟨0, 0, 0⟩, ⟨"", 0, 0, 0, 0⟩⟩⟩

/-- `THREE.MathUtils.lerp`. -/
noncomputable def lerp (x y t : ℝ) : ℝ := (1 - t) * x + t * y

/-- `THREE.MathUtils.smoothstep` with edges `0, 1`. -/
noncomputable def smoothstep (x : ℝ) : ℝ :=
  if x ≤ 0 then 0 else if 1 ≤ x then 1 else x * x * (3 - 2 * x)

/-- `THREE.MathUtils.degToRad`. -/
noncomputable def degToRad (deg : ℝ) : ℝ := deg * (Real.pi / 180)

/-- `new THREE.Vector3().setFromSpherical(new THREE.Spherical(r, phi,
theta))`. -/
noncomputable def sphericalToCartesian (radius phi theta : ℝ) : ℝ × ℝ × ℝ :=
  (Real.sin phi * radius * Real.sin theta, Real.cos phi * radius,
   Real.sin phi * radius * Real.cos theta)

/-- The bracketing-segment search loop: the first index `i` with
`keyframes[i].time ≤ t < keyframes[i+1].time`, or `0` when the scan
finds none (`startIdx` stays at its initial value). -/
noncomputable def findSegment (kfs : List Keyframe) (t : ℝ) : ℕ :=
  (((List.range (kfs.length - 1)).find? fun i =>
      decide ((kfs.getD i default).time ≤ t ∧ t < (kfs.getD (i + 1) default).time)).getD 0)

/-- The per-scene initial hold delay of the newer controller. -/
noncomputable def segmentDelay (targetScreen : String) : ℝ :=
  if targetScreen = "Vertical V2" then 0.5
  else if targetScreen = "Horizontal V2" then 0.5
  else if targetScreen = "Horizontal V3" then 0 else 1.5

/-- Output state written by one tick of the newer `AnimationController`:
the camera position it copies into the camera, and the discrete/continuous
config fields it pushes through `setConfig` / `animationConfigRef` (the
constant `startHour: 12` and the bookkeeping `segmentDuration` field are
omitted). -/
structure ControllerState where
  cameraPos : ℝ × ℝ × ℝ
  layout : String
  N : ℕ
  spacing : ℝ
  cubeSize : ℝ

/-- One tick of the newer `AnimationController` at `currentTime`, given
the state left by the previous tick.  At or after the final keyframe's
time the body returns early, leaving every output untouched; otherwise it
locates the bracketing segment, applies the per-scene hold delay, eases
the remaining progress (linear for `"Horizontal V3"`), interpolates the
spherical camera and the continuous config fields, and copies the
discrete fields from the segment's start keyframe. -/
noncomputable def animTick (kfs : List Keyframe) (targetScreen : String)
    (currentTime : ℝ) (prev : ControllerState) : ControllerState :=
  let totalDuration := (kfs.getD (kfs.length - 1) default).time
  if totalDuration ≤ currentTime then prev
  else
    let startIdx := findSegment kfs currentTime
    let startFrame := kfs.getD startIdx default
    let endFrame := kfs.getD (startIdx + 1) default
    let duration := endFrame.time - startFrame.time
    let elapsed := currentTime - startFrame.time
    let delay := segmentDelay targetScreen
    let progress :=
      if 0 < delay ∧ elapsed < delay then 0
      else min 1 (max 0 ((elapsed - delay) / max 0.001 (duration - delay)))
    let easedProgress :=
      if targetScreen = "Horizontal V3" then progress else smoothstep progress
    let r := lerp startFrame.camera.radius endFrame.camera.radius easedProgress
    let thetaDeg := lerp startFrame.camera.theta endFrame.camera.theta easedProgress
    let phiDeg := lerp startFrame.camera.phi endFrame.camera.phi easedProgress
    { cameraPos := sphericalToCartesian r (degToRad phiDeg) (degToRad thetaDeg)
      layout := startFrame.config.layout
      N := startFrame.config.N
      spacing := lerp startFrame.config.spacing endFrame.config.spacing easedProgress
      cubeSize := lerp startFrame.config.cubeSize endFrame.config.cubeSize easedProgress }

/-- `getConfigAtTime` of the info-panel view: at or after the final
keyframe's time it returns the final keyframe's config; otherwise the
start keyframe's config of the current segment (`N` and layout are
discrete, no interpolation). -/
noncomputable def getConfigAtTime (kfs : List Keyframe) (currentTime : ℝ) : KeyframeConfig :=
  let totalDuration := (kfs.getD (kfs.length - 1) default).time
  if totalDuration ≤ currentTime then (kfs.getD (kfs.length - 1) default).config
  else (kfs.getD (findSegment kfs currentTime) default).config

/-- The newer controller's early return: at or after the final keyframe's
time a tick changes nothing. -/
theorem animTick_clamp (kfs : List Keyframe) (ts : String) (t : ℝ)
    (prev : ControllerState)
    (h : (kfs.getD (kfs.length - 1) default).time ≤ t) :
    animTick kfs ts t prev = prev := by
  simp only [animTick]
  rw [if_pos h]

/-- `setConfig` payload of the older controller in
`src/components/vis/1/index.js`.  `N` is `Math.round` of a lerp. -/
structure V1Config where
  layout : String
  N : ℤ
  spacing : ℝ
  cubeSize : ℝ
  startHour : ℝ

noncomputable instance : Inhabited V1Config := ⟨⟨"", 0, 0, 0, 0⟩⟩

/-- `Math.round`. -/
noncomputable def jsRound (x : ℝ) : ℤ := ⌊x + 0.5⌋

/-- One tick of the older `AnimationController`
(`src/components/vis/1/index.js`): before the final keyframe's time it
interpolates every config field with the smoothstep-eased segment
progress — including `N`, which is lerped and then rounded — and takes
only `layout` discretely from the start keyframe; at or after the final
time it returns early, leaving the previous output. -/
noncomputable def animTickV1Config (kfs : List Keyframe) (currentTime : ℝ)
    (prev : V1Config) : V1Config :=
  let totalDuration := (kfs.getD (kfs.length - 1) default).time
  if totalDuration ≤ currentTime then prev
  else
    let startIdx := findSegment kfs currentTime
    let startFrame := kfs.getD startIdx default
    let endFrame := kfs.getD (startIdx + 1) default
    let duration := endFrame.time - startFrame.time
    let progress := (currentTime - startFrame.time) / duration
    let easedProgress := smoothstep progress
    { layout := startFrame.config.layout
      N := jsRound (lerp (startFrame.config.N : ℝ) (endFrame.config.N : ℝ) easedProgress)
      spacing := lerp startFrame.config.spacing endFrame.config.spacing easedProgress
      cubeSize := lerp startFrame.config.cubeSize endFrame.config.cubeSize easedProgress
      startHour := lerp startFrame.config.startHour endFrame.config.startHour easedProgress }

/-- With exactly two keyframes the segment search always yields index 0. -/
theorem findSegment_pair (k1 k2 : Keyframe) (t : ℝ) : findSegment [k1, k2] t = 0 := by
  unfold findSegment
  rcases hf : ((List.range (([k1, k2] : List Keyframe).length - 1)).find? fun i =>
      decide (((([k1, k2] : List Keyframe).getD i default).time ≤ t ∧
        t < (([k1, k2] : List Keyframe).getD (i + 1) default).time))) with _ | v
  · rfl
  · have hv : v ∈ List.range (([k1, k2] : List Keyframe).length - 1) :=
      List.mem_of_find?_eq_some hf
    simp only [List.length_cons, List.length_nil, List.mem_range] at hv
    simp only [Option.getD_some]
    omega

/-- A two-keyframe test scene: `"Cube"` at `t = 0`, `"Sphere"` at the
final time `t = 10`. -/
noncomputable def kfA : Keyframe := ⟨0, ⟨60, 0, 90⟩, ⟨"Cube", 2, 3, 1, 12⟩⟩

noncomputable def kfB : Keyframe := ⟨10, ⟨40, 90, 45⟩, ⟨"Sphere", 3, 2, 1.5, 12⟩⟩

/-- An arbitrary pre-existing output state. -/
noncomputable def initState : ControllerState := ⟨(0, 0, 0), "Init", 0, 0, 0⟩

/-- Claim C4, amended: once elapsed reaches or passes the final
keyframe's time, the render `AnimationController` performs no further
update at all — its output freezes idempotently at whatever the previous
tick produced, rather than erroring or extrapolating — while the
info-panel's `getConfigAtTime` returns exactly the final keyframe's
config on every such call.  The render controller's frozen output is not
in general the final keyframe's values (see the counterexample). -/
theorem C4_final_clamp (kfs : List Keyframe) (ts : String) (t : ℝ)
    (prev : ControllerState)
    (h : (kfs.getD (kfs.length - 1) default).time ≤ t) :
    animTick kfs ts t prev = prev ∧
    getConfigAtTime kfs t = (kfs.getD (kfs.length - 1) default).config := by
  refine ⟨animTick_clamp kfs ts t prev h, ?_⟩
  simp only [getConfigAtTime]
  rw [if_pos h]

theorem C4_witness :
    animTick [kfA, kfB] "L-shaped" 10 initState = initState ∧
    getConfigAtTime [kfA, kfB] 10 = (([kfA, kfB] : List Keyframe).getD 1 default).config :=
  C4_final_clamp [kfA, kfB] "L-shaped" 10 initState (by norm_num [kfB])

/-- Claim C4, counterexample: with the scene `[kfA ("Cube"), kfB
("Sphere")]`, ticking at `t = 5` and then at the final time `t = 10`
leaves the output layout at `"Cube"`; the final keyframe's layout is
`"Sphere"`, so at/after the final time the controller's output does not
equal the final keyframe's values. -/
theorem C4_counterexample :
    (animTick [kfA, kfB] "L-shaped" 10
      (animTick [kfA, kfB] "L-shaped" 5 initState)).layout = "Cube" ∧
    kfB.config.layout = "Sphere" := by
  have houter := animTick_clamp [kfA, kfB] "L-shaped" 10
    (animTick [kfA, kfB] "L-shaped" 5 initState) (by norm_num [kfB])
  rw [houter]
  refine ⟨?_, rfl⟩
  simp only [animTick]
  rw [if_neg (by norm_num [kfB])]
  simp only [findSegment_pair]
  simp [kfA]

/-- Claim C5, amended: the newer render controller propagates the
discrete fields without blending: before the final keyframe's time its
output layout and `N` are exactly the segment's start keyframe's values
(hence always one of the two bracketing keyframes' exact values, changing
only at segment boundaries), and the older controller's layout is also
discrete; but the older controller in `src/components/vis/1/index.js`
violates the claim for `N` — it outputs `round(lerp(N_i, N_{i+1}, eased))`,
which takes intermediate integer values mid-segment (counterexample). -/
theorem C5_discrete_fields (kfs : List Keyframe) (ts : String) (t : ℝ)
    (prev : ControllerState)
    (h : t < (kfs.getD (kfs.length - 1) default).time) :
    (animTick kfs ts t prev).layout =
      (kfs.getD (findSegment kfs t) default).config.layout ∧
    (animTick kfs ts t prev).N = (kfs.getD (findSegment kfs t) default).config.N ∧
    (animTickV1Config kfs t default).layout =
      (kfs.getD (findSegment kfs t) default).config.layout := by
  have hn := not_le.mpr h
  simp only [animTick, animTickV1Config]
  rw [if_neg hn, if_neg hn]
  exact ⟨rfl, rfl, rfl⟩

theorem C5_witness :
    (animTick [kfA, kfB] "L-shaped" 5 initState).layout =
      (([kfA, kfB] : List Keyframe).getD (findSegment [kfA, kfB] 5) default).config.layout ∧
    (animTick [kfA, kfB] "L-shaped" 5 initState).N =
      (([kfA, kfB] : List Keyframe).getD (findSegment [kfA, kfB] 5) default).config.N ∧
    (animTickV1Config [kfA, kfB] 5 default).layout =
      (([kfA, kfB] : List Keyframe).getD (findSegment [kfA, kfB] 5) default).config.layout :=
  C5_discrete_fields [kfA, kfB] "L-shaped" 5 initState (by norm_num [kfB])

/-- Segment from `N = 4` at `t = 0` to `N = 24` at `t = 2`. -/
noncomputable def kfC : Keyframe := ⟨0, ⟨60, 0, 90⟩, ⟨"Cube", 4, 3, 1, 12⟩⟩

noncomputable def kfD : Keyframe := ⟨2, ⟨40, 90, 45⟩, ⟨"Cube", 24, 2, 1, 12⟩⟩

/-- Claim C5, counterexample: the older controller at `t = 1`, bracketed
by `N = 4` and `N = 24`, outputs `N = round(lerp(4, 24, smoothstep 0.5))
= 14`, which is neither bracketing keyframe's value. -/
theorem C5_counterexample :
    (animTickV1Config [kfC, kfD] 1 default).N = 14 ∧
    kfC.config.N = 4 ∧ kfD.config.N = 24 ∧ (14 : ℤ) ≠ 4 ∧ (14 : ℤ) ≠ 24 := by
  refine ⟨?_, rfl, rfl, by norm_num, by norm_num⟩
  simp only [animTickV1Config]
  rw [if_neg (by norm_num [kfD])]
  simp only [findSegment_pair, List.getD_cons_zero, List.getD_cons_succ]
  have hstep : smoothstep ((1 - kfC.time) / (kfD.time - kfC.time)) = 1 / 2 := by
    norm_num [kfC, kfD, smoothstep]
  rw [hstep]
  have hlerp : lerp ((kfC.config.N : ℕ) : ℝ) ((kfD.config.N : ℕ) : ℝ) (1 / 2) = 14 := by
    norm_num [kfC, kfD, lerp]
  rw [hlerp]
  show jsRound 14 = 14
  unfold jsRound
  rw [Int.floor_eq_iff]
  norm_num

/-- Layouts that must orient each instance toward the origin (slow
look-at path); every other layout takes the fast path. -/
def needsRotation (layout : String) : Bool :=
  layout == "Sphere" || layout == "Cylinder" || layout == "Helix" || layout == "Conical"

/-- Eased transition progress of the `useFrame` body:
`THREE.MathUtils.smoothstep(min(1, max(0, elapsed / TRANSITION_DURATION)), 0, 1)`. -/
noncomputable def easedLayoutProgress (elapsed transitionDuration : ℝ) : ℝ :=
  smoothstep (min 1 (max 0 (elapsed / transitionDuration)))

/-- The sixteen values the unrolled fast path writes for one instance:
diagonal scale `s` at offsets 0, 5, 10, the translation at 12–14, a `1`
at 15 and `0` elsewhere.  The construction uses no trigonometric
functions. -/
noncomputable def fastPathEntry (s x y z : ℝ) : ℕ → ℝ := fun k =>
  if k = 0 ∨ k = 5 ∨ k = 10 then s
  else if k = 12 then x
  else if k = 13 then y
  else if k = 14 then z
  else if k = 15 then 1
  else 0

/-- The transform computed for one instance on one tick: the unit
position is interpolated from the captured start value to the layout's
target value by the progress scalar and multiplied by the live spacing;
layouts needing rotation delegate to the external look-at construction
(`THREE.Object3D.lookAt`, passed in as `slowWrite`), all others take the
trigonometry-free fast path. -/
noncomputable def tickMatrix (layout : String)
    (slowWrite : ℝ × ℝ × ℝ → ℝ → ℕ → ℝ)
    (start target : ℝ × ℝ × ℝ) (progress spacing s : ℝ) : ℕ → ℝ :=
  let ux := start.1 + (target.1 - start.1) * progress
  let uy := start.2.1 + (target.2.1 - start.2.1) * progress
  let uz := start.2.2 + (target.2.2 - start.2.2) * progress
  if needsRotation layout then slowWrite (ux * spacing, uy * spacing, uz * spacing) s
  else fastPathEntry s (ux * spacing) (uy * spacing) (uz * spacing)

/-- The whole instance-matrix buffer after one tick: for `j < count·16`
the entry belongs to instance `j / 16`'s slice and receives component
`j % 16` of that instance's transform; entries beyond the live count are
untouched. -/
noncomputable def tickBuffer (layout : String) (slowWrite : ℝ × ℝ × ℝ → ℝ → ℕ → ℝ)
    (start target : ℕ → ℝ × ℝ × ℝ) (progress spacing s : ℝ) (count : ℕ)
    (buf : ℕ → ℝ) : ℕ → ℝ := fun j =>
  if j < count * 16 then
    tickMatrix layout slowWrite (start (j / 16)) (target (j / 16)) progress spacing s (j % 16)
  else buf j

/-- Claim C9: for every layout other than Sphere, Cylinder, Helix and
Conical, the tick writes into buffer slice `[i·16, i·16+16)` exactly the
diagonal-scale-plus-translation matrix
`[s,0,0,0, 0,s,0,0, 0,0,s,0, x,y,z,1]`, where `(x,y,z)` is the unit
position lerped from the captured start to the layout target by the
eased progress and multiplied by the live spacing, and `s` is the current
cube size.  The fast path (`fastPathEntry`) contains no trigonometric
calls by construction. -/
theorem C9_fast_path (layout : String) (hrot : needsRotation layout = false)
    (slowWrite : ℝ × ℝ × ℝ → ℝ → ℕ → ℝ) (start target : ℕ → ℝ × ℝ × ℝ)
    (elapsed transitionDuration spacing s : ℝ) (count i : ℕ) (hi : i < count)
    (buf : ℕ → ℝ) (k : ℕ) (hk : k < 16) :
    tickBuffer layout slowWrite start target
        (easedLayoutProgress elapsed transitionDuration) spacing s count buf
        (i * 16 + k) =
      [s, 0, 0, 0, 0, s, 0, 0, 0, 0, s, 0,
        ((start i).1 + ((target i).1 - (start i).1) *
          easedLayoutProgress elapsed transitionDuration) * spacing,
        ((start i).2.1 + ((target i).2.1 - (start i).2.1) *
          easedLayoutProgress elapsed transitionDuration) * spacing,
        ((start i).2.2 + ((target i).2.2 - (start i).2.2) *
          easedLayoutProgress elapsed transitionDuration) * spacing,
        1].getD k 0 := by
  have hj : i * 16 + k < count * 16 := by omega
  have hdiv : (i * 16 + k) / 16 = i := by omega
  have hmod : (i * 16 + k) % 16 = k := by omega
  unfold tickBuffer
  rw [if_pos hj, hdiv, hmod]
  unfold tickMatrix
  rw [hrot]
  simp only [Bool.false_eq_true, if_false]
  unfold fastPathEntry
  interval_cases k <;> simp

theorem C9_witness :
    tickBuffer "Cube" (fun _ _ _ => 0) (fun _ => (0, 0, 0)) (fun _ => (1, 1, 1))
        (easedLayoutProgress 1 1) 2 3 1 (fun _ => 0) (0 * 16 + 14) =
      [3, 0, 0, 0, 0, 3, 0, 0, 0, 0, 3, 0,
        (0 + (1 - 0) * easedLayoutProgress 1 1) * 2,
        (0 + (1 - 0) * easedLayoutProgress 1 1) * 2,
        (0 + (1 - 0) * easedLayoutProgress 1 1) * 2, 1].getD 14 0 :=
  C9_fast_path "Cube" rfl (fun _ _ _ => 0) (fun _ => (0, 0, 0)) (fun _ => (1, 1, 1))
    1 1 2 3 1 0 (by norm_num) (fun _ => 0) 14 (by norm_num)

end DatabaseCinema
